import Mathlib

set_option maxRecDepth 100000

/-! Shallow embedding of the chunked data streaming core of the repository:
the server-side chunked writer in `backend/data_adapter.go` and the
client-side stream reassembler in `experimental/datasourcetest/client.go`.

Go pointer aliasing is flattened: in the Go writer, `chunkingState.curFrame`
always aliases the last element of `chunkingState.frames` (it is only ever set
to a frame just appended there), so here `frames` holds the non-current frames
and the full Go fragment list is `frames ++ curFrame.toList` (`fullFrames`).
The same flattening applies to the client's `streamState`.

The columnar binary codec (`data.Frame.MarshalArrow` /
`data.UnmarshalArrowFrame`) is external to the repository and is modelled as a
parameter `enc`/`dec : Frame → Except String Frame`; the identity codec
`encId` instantiates it for round-trip runs. -/

/-- Cell value of a data column; the element type is opaque to the protocol. -/
abbrev Val := Nat

/-- One column of a data frame, after the SDK's field type (a name and the
vector of values); the vector length is the column's row count. -/
structure DataField where
  name : String
  values : List Val
  deriving DecidableEq

/-- A data frame, after `data.Frame`: name, RefID and ordered columns. -/
structure Frame where
  name : String
  refID : String
  fields : List DataField
  deriving DecidableEq

/-- `data.Frame.Rows`: length of the first column, `0` if there are none. -/
def Frame.rows (f : Frame) : Nat :=
  match f.fields with
  | [] => 0
  | fl :: _ => fl.values.length

/-- `data.Frame.EmptyCopy`: same name, RefID and column names, zero rows. -/
def Frame.emptyCopy (f : Frame) : Frame :=
  ⟨f.name, f.refID, f.fields.map (fun fl => ⟨fl.name, []⟩)⟩

/-- `data.Frame.AppendRow`: append the i-th value to the i-th column.  The
writer only calls it after checking the arity, where the zip is exact. -/
def Frame.appendRowVals (f : Frame) (vals : List Val) : Frame :=
  ⟨f.name, f.refID, List.zipWith (fun fl v => ⟨fl.name, fl.values ++ [v]⟩) f.fields vals⟩

/-- `markerFrame` of `data_adapter.go`: `data.NewFrame("")`, the zero-row
zero-column delimiter signalling the start of a new frame. -/
def markerFrame : Frame := ⟨"", "", []⟩

/-- `chunkingState` of `data_adapter.go`.  `frames` excludes the current
frame (see the aliasing note in the file header); `Error`, `Status`,
`ErrorSource` are the error-handling fields. -/
structure ChunkingState where
  frames : List Frame
  curFrame : Option Frame
  Error : Option String
  Status : Int
  ErrorSource : String
  deriving DecidableEq

/-- The Go fragment list of a `chunkingState`: buffered frames plus the frame
currently accepting rows (which Go keeps as the list's last element). -/
def fullFrames (st : ChunkingState) : List Frame :=
  st.frames ++ st.curFrame.toList

/-- `chunkingState.addFrame`: append the marker frame and `f`; `f` becomes the
current frame. -/
def ChunkingState.addFrame (st : ChunkingState) (f : Frame) : ChunkingState :=
  { st with frames := st.frames ++ st.curFrame.toList ++ [markerFrame], curFrame := some f }

/-- Error message of `addRow` when no frame is being processed. -/
def noFrameMsg : String := "no frame being processed, cannot add row"

/-- Error message of `addRow` on a field-count mismatch, after
`fmt.Errorf("field count mismatch: got %d, want %d", ...)`. -/
def arityMsg (got want : Nat) : String :=
  "field count mismatch: got " ++ toString got ++ ", want " ++ toString want

/-- `chunkingState.addRow`: fails if no current frame or on a field-count
mismatch, otherwise appends the row to the current frame. -/
def ChunkingState.addRow (st : ChunkingState) (vals : List Val) : Except String ChunkingState :=
  match st.curFrame with
  | none => .error noFrameMsg
  | some fr =>
    if vals.length = fr.fields.length then
      .ok { st with curFrame := some (fr.appendRowVals vals) }
    else
      .error (arityMsg vals.length fr.fields.length)

/-- `chunkingState.reset`: if a frame is open, the state restarts from a fresh
empty copy of it (the fragment list becomes exactly that copy), otherwise the
state is cleared entirely; the error fields are zeroed either way. -/
def ChunkingState.reset (st : ChunkingState) : ChunkingState :=
  match st.curFrame with
  | some fr => ⟨[], some fr.emptyCopy, none, 0, ""⟩
  | none => ⟨[], none, none, 0, ""⟩

/-- `pluginv2.ChunkedDataResponse`, the wire-level batch for one RefID. -/
structure ChunkedDataResponse where
  RefId : String
  Frames : List Frame
  Status : Int
  Error : String
  ErrorSource : String
  deriving DecidableEq

/-- Association-list lookup, standing in for a Go map read. -/
def alookup {α : Type} : List (String × α) → String → Option α
  | [], _ => none
  | p :: rest, id => if p.1 = id then some p.2 else alookup rest id

/-- Association-list update, standing in for a Go map write.  A fresh key is
appended, fixing one iteration order among those a Go map may exhibit. -/
def aset {α : Type} : List (String × α) → String → α → List (String × α)
  | [], id, v => [(id, v)]
  | p :: rest, id, v => if p.1 = id then (id, v) :: rest else p :: aset rest id v

/-- `chunkedDataWriter`: per-RefID chunking states, the pending row counter,
and the responses sent on the gRPC stream so far (the stream itself). -/
structure ChunkedDataWriter where
  states : List (String × ChunkingState)
  count : Nat
  sent : List ChunkedDataResponse
  deriving DecidableEq

/-- Serialize one state's fragment list with the codec `enc`, failing at the
first frame that does not marshal. -/
def encodeAll (enc : Frame → Except String Frame) : List Frame → Except String (List Frame)
  | [] => .ok []
  | f :: rest =>
    match enc f with
    | .error e => .error e
    | .ok ef =>
      match encodeAll enc rest with
      | .error e => .error e
      | .ok efs => .ok (ef :: efs)

/-- Build the `ChunkedDataResponse` for one RefID inside `flush`: every
buffered frame is marshalled, and the state's error fields are copied over
(`errStr` is `""` when no error is attached). -/
def buildResp (enc : Frame → Except String Frame) (refID : String) (st : ChunkingState) :
    Except String ChunkedDataResponse :=
  match encodeAll enc (fullFrames st) with
  | .error e => .error e
  | .ok efs => .ok ⟨refID, efs, st.Status, st.Error.getD "", st.ErrorSource⟩

/-- The send loop of `flush`: per RefID, marshal the fragment list and send
the batch.  A marshal failure returns that error; batches for RefIDs processed
earlier in the pass have already been sent and stand. -/
def flushSends (enc : Frame → Except String Frame) :
    List (String × ChunkingState) → List ChunkedDataResponse × Option String
  | [] => ([], none)
  | (id, st) :: rest =>
    match buildResp enc id st with
    | .error e => ([], some e)
    | .ok r =>
      let p := flushSends enc rest
      (r :: p.1, p.2)

/-- `chunkedDataWriter.flush`: a no-op when the pending counter is zero; else
send one batch per RefID in the state map, and only if the whole pass
succeeded reset every state and zero the counter. -/
def flush (enc : Frame → Except String Frame) (w : ChunkedDataWriter) :
    ChunkedDataWriter × Option String :=
  if w.count = 0 then (w, none)
  else
    match flushSends enc w.states with
    | (out, some e) => ({ w with sent := w.sent ++ out }, some e)
    | (out, none) =>
      (⟨w.states.map (fun q => (q.1, q.2.reset)), 0, w.sent ++ out⟩, none)

/-- `chunkedDataWriter.maybeFlush` with the fixed `maxBatchSize = 1000`. -/
def maybeFlush (enc : Frame → Except String Frame) (w : ChunkedDataWriter) :
    ChunkedDataWriter × Option String :=
  if w.count < 1000 then (w, none) else flush enc w

/-- `chunkedDataWriter.WriteFrame`: create the state on first use, stamp the
frame with the RefID, append it behind a marker, bump the counter by the
frame's row count, then maybe flush. -/
def WriteFrame (enc : Frame → Except String Frame) (w : ChunkedDataWriter)
    (refID : String) (f : Frame) : ChunkedDataWriter × Option String :=
  let st := (alookup w.states refID).getD ⟨[], none, none, 0, ""⟩
  let f2 : Frame := ⟨f.name, refID, f.fields⟩
  let st2 := st.addFrame f2
  maybeFlush enc { w with states := aset w.states refID st2, count := w.count + f2.rows }

/-- `chunkedDataWriter.WriteFrameRow`.  `none` models the Go panic: when no
state exists for `refID`, `state.addRow` dereferences a nil pointer.  On an
`addRow` error the error is returned and the writer is untouched; on success
the counter is bumped and `maybeFlush` runs. -/
def WriteFrameRow (enc : Frame → Except String Frame) (w : ChunkedDataWriter)
    (refID : String) (vals : List Val) : Option (ChunkedDataWriter × Option String) :=
  match alookup w.states refID with
  | none => none
  | some st =>
    match st.addRow vals with
    | .error e => some (w, some e)
    | .ok st2 =>
      some (maybeFlush enc { w with states := aset w.states refID st2, count := w.count + 1 })

/-- `chunkedDataWriter.WriteError`.  `none` models the Go panic: when no state
exists for `refID`, `state.Error = err` dereferences a nil pointer.  Otherwise
the error is attached, the counter bumped, and a flush forced. -/
def WriteError (enc : Frame → Except String Frame) (w : ChunkedDataWriter)
    (refID : String) (emsg : String) : Option (ChunkedDataWriter × Option String) :=
  match alookup w.states refID with
  | none => none
  | some st =>
    let st2 : ChunkingState := { st with Error := some emsg }
    some (flush enc { w with states := aset w.states refID st2, count := w.count + 1 })

/-- `chunkedDataWriter.Close`: a forced final flush. -/
def Close (enc : Frame → Except String Frame) (w : ChunkedDataWriter) :
    ChunkedDataWriter × Option String :=
  flush enc w

/-- The identity codec: stands for a marshal/unmarshal pair that round-trips
every frame and never fails. -/
def encId : Frame → Except String Frame := fun f => .ok f

/-- A fresh writer, as built by `newChunkedDataWriter`. -/
def newWriter : ChunkedDataWriter := ⟨[], 0, []⟩

/-- `streamState` of `client.go`, the client-side per-RefID state.  As for the
writer, `curFrame` aliases the last element of the Go `frames` list whenever it
is set, so `frames` here holds the frames no longer open and the Go list is
`frames ++ curFrame.toList` (`allFrames`). -/
structure StreamState where
  frames : List Frame
  curFrame : Option Frame
  deriving DecidableEq

/-- The Go `streamState.frames` list: accumulated logical tables, the one
still open last. -/
def allFrames (st : StreamState) : List Frame :=
  st.frames ++ st.curFrame.toList

/-- Append every value of column `a` to column `c`, after
`data.Field.AppendAll`. -/
def appendAllVals (c a : DataField) : DataField :=
  ⟨c.name, c.values ++ a.values⟩

/-- The merge loop of `QueryChunkedData`: `f`'s columns are appended
column-for-column onto the current frame's first columns; current columns
beyond `f`'s column count are left as they are.  Only meaningful when `f` has
no more columns than `cur` (otherwise the Go loop panics, see `clientStep`). -/
def mergeInto (cur f : Frame) : Frame :=
  ⟨cur.name, cur.refID,
    List.zipWith appendAllVals cur.fields f.fields ++ cur.fields.drop f.fields.length⟩

/-- One fragment step of `QueryChunkedData`: a zero-row frame closes the open
frame; otherwise the fragment is merged into the open frame when one exists
(`none` models the index-out-of-range panic when the fragment has more columns
than the open frame), or becomes a new logical table. -/
def clientStep (st : StreamState) (f : Frame) : Option StreamState :=
  if f.rows = 0 then
    some ⟨st.frames ++ st.curFrame.toList, none⟩
  else
    match st.curFrame with
    | some cur =>
      if cur.fields.length < f.fields.length then none
      else some ⟨st.frames, some (mergeInto cur f)⟩
    | none => some ⟨st.frames, some f⟩

/-- Outcome of the client's receive loop: the per-RefID accumulated frame
lists on a clean end of stream, a returned error, or a panic. -/
inductive ClientResult where
  | ok (resps : List (String × List Frame))
  | fail (e : String)
  | crashed
  deriving DecidableEq

/-- Outcome of processing the fragments of one response. -/
inductive ProcRes where
  | ok (st : StreamState)
  | fail (e : String)
  | crashed
  deriving DecidableEq

/-- Process one response's fragment list: unmarshal each fragment with `dec`
(a decode error is returned as the call's error) and fold `clientStep` over
the decoded frames (a merge panic aborts everything). -/
def procFrames (dec : Frame → Except String Frame) (st : StreamState) :
    List Frame → ProcRes
  | [] => .ok st
  | f :: rest =>
    match dec f with
    | .error e => .fail e
    | .ok fd =>
      match clientStep st fd with
      | none => .crashed
      | some st2 => procFrames dec st2 rest

/-- The receive loop of `QueryChunkedData`.  `resps` are the responses the
stream delivers before its terminal event; `terminal = none` is a normal end
of stream (`io.EOF`), after which the accumulated per-RefID frame lists are
returned, while `terminal = some e` is a transport error, on which the loop
returns only the error — the accumulated state is discarded. -/
def runClient (dec : Frame → Except String Frame) (m : List (String × StreamState)) :
    List ChunkedDataResponse → Option String → ClientResult
  | [], none => .ok (m.map (fun p => (p.1, allFrames p.2)))
  | [], some e => .fail e
  | r :: rest, terminal =>
    match procFrames dec ((alookup m r.RefId).getD ⟨[], none⟩) r.Frames with
    | .fail e => .fail e
    | .crashed => .crashed
    | .ok st2 => runClient dec (aset m r.RefId st2) rest terminal

/-- Producer-side operations for round-trip runs: the `ChunkedDataWriter`
calls a handler may make. -/
inductive WOp where
  | writeFrame (refID : String) (f : Frame)
  | writeFrameRow (refID : String) (vals : List Val)
  | writeError (refID : String) (emsg : String)

/-- Run one writer operation. -/
def runOp (enc : Frame → Except String Frame) (w : ChunkedDataWriter) :
    WOp → Option (ChunkedDataWriter × Option String)
  | .writeFrame id f => some (WriteFrame enc w id f)
  | .writeFrameRow id vals => WriteFrameRow enc w id vals
  | .writeError id e => WriteError enc w id e

/-- Run a sequence of writer operations, stopping at the first returned error
or panic. -/
def runOps (enc : Frame → Except String Frame) (w : ChunkedDataWriter) :
    List WOp → Option (ChunkedDataWriter × Option String)
  | [] => some (w, none)
  | op :: rest =>
    match runOp enc w op with
    | none => none
    | some (w2, some e) => some (w2, some e)
    | some (w2, none) => runOps enc w2 rest

/-- End-to-end round trip: run the producer operations on a fresh writer with
the identity codec, `Close` the writer, deliver every sent response to the
reassembler in order, and end the stream normally. -/
def pipeline (ops : List WOp) : ClientResult :=
  match runOps encId newWriter ops with
  | none => .crashed
  | some (_, some e) => .fail e
  | some (w, none) =>
    let q := Close encId w
    match q.2 with
    | some e => .fail e
    | none => runClient encId [] q.1.sent none

/-- Producer run exhibiting the logical-table split: RefID "A" opens a table
with one row, RefID "B" delivers two 1000-row frames, each crossing the flush
threshold while "A" is idle, and then one more row is appended to "A"'s still
open logical table before the writer is closed. -/
def opsC1 : List WOp :=
  [.writeFrame "A" ⟨"fa", "", [⟨"v", [10]⟩]⟩,
   .writeFrame "B" ⟨"fb", "", [⟨"v", List.replicate 1000 7⟩]⟩,
   .writeFrame "B" ⟨"fb2", "", [⟨"v", List.replicate 1000 8⟩]⟩,
   .writeFrameRow "A" [20]]

/-- A codec that fails to marshal exactly the frames named "bad". -/
def encBad : Frame → Except String Frame :=
  fun f => if f.name = "bad" then .error "marshal failed" else .ok f

/-- State with an open, serializable frame. -/
def stGood : ChunkingState := ⟨[], some ⟨"good", "A", [⟨"v", [1]⟩]⟩, none, 0, ""⟩

/-- State whose open frame fails to marshal under `encBad`. -/
def stBad : ChunkingState := ⟨[], some ⟨"bad", "B", [⟨"v", [2]⟩]⟩, none, 0, ""⟩

/-- Writer whose second state fails serialization under `encBad`. -/
def wC2 : ChunkedDataWriter := ⟨[("A", stGood), ("B", stBad)], 2, []⟩

/-- A writer that knows identifier "A" with an EMPTY fragment list (no open
frame) and a nonzero pending counter. -/
def wEmptyFrag : ChunkedDataWriter := ⟨[("A", ⟨[], none, none, 0, ""⟩)], 1, []⟩

/-- State with no open frame but pending error info, as C7's claim's
"identifiers with no open fragment (e.g., only errors)". -/
def stErrOnly : ChunkingState := ⟨[], none, some "boom", 3, "plugin"⟩

/-- Writer exercising both reset branches for the C7 witness. -/
def w7 : ChunkedDataWriter := ⟨[("A", stGood), ("C", stErrOnly)], 1, []⟩

/-- The writer left behind by flushing `w7`. -/
def w7flushed : ChunkedDataWriter := (flush encId w7).1

/-- A one-column open table for RefID "A". -/
def c3open : Frame := ⟨"t", "A", [⟨"x", [1]⟩]⟩

/-- A two-column non-empty fragment for RefID "A": one more column than the
open table. -/
def c3wide : Frame := ⟨"t2", "A", [⟨"x", [2]⟩, ⟨"y", [3]⟩]⟩

/-- Writer holding a state for "A" with no open frame. -/
def w4 : ChunkedDataWriter := ⟨[("A", ⟨[], none, none, 0, ""⟩)], 0, []⟩

/-- State holding a one-column open frame for the C8 witness. -/
def stC8 : ChunkingState := ⟨[], some ⟨"t", "A", [⟨"x", [1]⟩]⟩, none, 0, ""⟩

/-- Writer holding `stC8` under "A". -/
def w8 : ChunkedDataWriter := ⟨[("A", stC8)], 1, []⟩

/-- Invariant of the reassembler's per-RefID state: every accumulated frame,
open or closed, has at least one row. -/
def goodS (st : StreamState) : Prop :=
  (∀ f ∈ st.frames, 1 ≤ f.rows) ∧ (∀ f ∈ st.curFrame.toList, 1 ≤ f.rows)

/-- A zero-row, two-column fragment: not marker-shaped, still read as one. -/
def f0wide : Frame := ⟨"w", "A", [⟨"x", []⟩, ⟨"y", []⟩]⟩

/-- C1.  Round trip: the claim that the reassembled logical table per
identifier is the exact concatenation of the appended rows, independent of
batch boundaries, fails on the code.  On `opsC1`, RefID "A" has one logical
table (opened once, one initial row `10`, one appended row `20`), yet the
reassembler returns TWO tables for "A", `[10]` and `[20]`: the automatic flush
triggered by "B"'s second frame sends "A"'s still-row-less empty-copy
fragment, and the reassembler reads any zero-row fragment as a boundary
marker, closing "A"'s open table.  (RefID "B" correctly gets its two opened
tables.) -/
theorem c1_roundtrip_splits_idle_table :
    pipeline opsC1 = ClientResult.ok
      [("A", [⟨"fa", "A", [⟨"v", [10]⟩]⟩, ⟨"fa", "A", [⟨"v", [20]⟩]⟩]),
       ("B", [⟨"fb", "B", [⟨"v", List.replicate 1000 7⟩]⟩,
              ⟨"fb2", "B", [⟨"v", List.replicate 1000 8⟩]⟩])] := by
  decide

/-- A successfully built response carries the RefID it was built for. -/
theorem buildResp_RefId (enc : Frame → Except String Frame) (id : String)
    (st : ChunkingState) (r : ChunkedDataResponse)
    (h : buildResp enc id st = .ok r) : r.RefId = id := by
  unfold buildResp at h
  cases he : encodeAll enc (fullFrames st) <;> rw [he] at h
  · exact absurd h (by simp)
  · cases h
    rfl

/-- If every state before position `k` serializes and the state at `k` fails,
`flushSends` returns exactly the batches of the states before `k`, in order,
together with the serialization error. -/
theorem flushSends_prefix_error (enc : Frame → Except String Frame)
    (pre post : List (String × ChunkingState)) (id : String) (st : ChunkingState)
    (e : String)
    (hpre : ∀ p ∈ pre, ∃ r, buildResp enc p.1 p.2 = .ok r)
    (hfail : buildResp enc id st = .error e) :
    ∃ out, flushSends enc (pre ++ (id, st) :: post) = (out, some e) ∧
      out.map (fun r => r.RefId) = pre.map (fun p => p.1) := by
  induction pre with
  | nil =>
    refine ⟨[], ?_, rfl⟩
    simp [flushSends, hfail]
  | cons p rest ih =>
    obtain ⟨r, hr⟩ := hpre p (List.mem_cons_self p rest)
    obtain ⟨out, h1, h2⟩ := ih (fun q hq => hpre q (List.mem_cons_of_mem p hq))
    obtain ⟨pid, pst⟩ := p
    refine ⟨r :: out, ?_, ?_⟩
    · simp [flushSends, hr, h1]
    · simp [h2, buildResp_RefId enc pid pst r hr]

/-- C2 counterexample.  On `wC2`, serializing "B"'s fragment fails, yet the
flush has already sent "A"'s batch on the channel: the claim that such a flush
sends no batch for any identifier is false. -/
theorem c2_counterexample :
    (flush encBad wC2).2 = some "marshal failed" ∧ (flush encBad wC2).1.sent ≠ [] := by
  decide

/-- C2 (amended).  When serializing the fragment list of the identifier at
position `k` of the flush pass fails, `flush` returns that error, does not
reset any state and does not clear the counter — but the batches of the
identifiers processed earlier in the same pass have already been sent on the
channel and are not retracted: the flush is per-identifier incremental, not
all-or-nothing. -/
theorem c2_flush_is_not_atomic (enc : Frame → Except String Frame)
    (w : ChunkedDataWriter) (pre post : List (String × ChunkingState))
    (id : String) (st : ChunkingState) (e : String)
    (hw : w.states = pre ++ (id, st) :: post) (hc : w.count ≠ 0)
    (hpre : ∀ p ∈ pre, ∃ r, buildResp enc p.1 p.2 = .ok r)
    (hfail : buildResp enc id st = .error e) :
    ∃ out, flush enc w = ({ w with sent := w.sent ++ out }, some e) ∧
      out.map (fun r => r.RefId) = pre.map (fun p => p.1) := by
  obtain ⟨out, h1, h2⟩ := flushSends_prefix_error enc pre post id st e hpre hfail
  refine ⟨out, ?_, h2⟩
  rw [flush, if_neg hc, hw, h1]

/-- C2 witness: the amended statement at the concrete writer `wC2`. -/
theorem c2_witness :
    wC2.states = [("A", stGood)] ++ ("B", stBad) :: [] ∧ wC2.count ≠ 0 ∧
    buildResp encBad "B" stBad = .error "marshal failed" ∧
    ∃ out, flush encBad wC2 = ({ wC2 with sent := wC2.sent ++ out }, some "marshal failed") ∧
      out.map (fun r => r.RefId) = [("A", stGood)].map (fun p => p.1) :=
  ⟨by decide, by decide, by rfl,
    c2_flush_is_not_atomic encBad wC2 [("A", stGood)] [] "B" stBad "marshal failed"
      (by decide) (by decide)
      (by
        intro p hp
        rw [List.mem_singleton] at hp
        subst hp
        exact ⟨_, rfl⟩)
      (by rfl)⟩

/-- If every state serializes, `flushSends` succeeds and returns exactly one
batch per state, keyed in order. -/
theorem flushSends_all_ok (enc : Frame → Except String Frame)
    (l : List (String × ChunkingState))
    (h : ∀ p ∈ l, ∃ r, buildResp enc p.1 p.2 = .ok r) :
    ∃ out, flushSends enc l = (out, none) ∧
      out.map (fun r => r.RefId) = l.map (fun p => p.1) := by
  induction l with
  | nil => exact ⟨[], rfl, rfl⟩
  | cons p rest ih =>
    obtain ⟨r, hr⟩ := h p (List.mem_cons_self p rest)
    obtain ⟨out, h1, h2⟩ := ih (fun q hq => h q (List.mem_cons_of_mem p hq))
    obtain ⟨pid, pst⟩ := p
    refine ⟨r :: out, ?_, ?_⟩
    · simp [flushSends, hr, h1]
    · simp [h2, buildResp_RefId enc pid pst r hr]

/-- C5 counterexample.  `flush` performs no non-emptiness check on the
fragment list: on `wEmptyFrag`, identifier "A" has an empty fragment list and
the flush nevertheless sends a (fragmentless) batch for it, contradicting the
claim that such identifiers produce no batch. -/
theorem c5_counterexample :
    (flush encId wEmptyFrag).1.sent = [⟨"A", [], 0, "", ""⟩] ∧
    (flush encId wEmptyFrag).2 = none := by
  decide

/-- C5 (amended).  A flush with a nonzero pending counter whose serialization
succeeds sends EXACTLY one batch for EVERY identifier in the state map, in
map order, whether or not its fragment list is empty (the code never checks
emptiness; identifiers with empty fragment lists simply cannot arise through
the writer API, because every state is created by `WriteFrame`, which opens a
frame, and `reset` keeps a fragment for every state with an open frame).  In
particular at most one batch per identifier is sent per flush. -/
theorem c5_flush_one_batch_per_state (enc : Frame → Except String Frame)
    (w : ChunkedDataWriter) (hc : w.count ≠ 0)
    (henc : ∀ p ∈ w.states, ∃ r, buildResp enc p.1 p.2 = .ok r) :
    ∃ out, flush enc w =
        (⟨w.states.map (fun q => (q.1, q.2.reset)), 0, w.sent ++ out⟩, none) ∧
      out.map (fun r => r.RefId) = w.states.map (fun p => p.1) := by
  obtain ⟨out, h1, h2⟩ := flushSends_all_ok enc w.states henc
  refine ⟨out, ?_, h2⟩
  rw [flush, if_neg hc, h1]

/-- C5 witness: the amended statement at the concrete writer `wC2` under the
identity codec (both of its fragment lists serialize). -/
theorem c5_witness :
    wC2.count ≠ 0 ∧
    ∃ out, flush encId wC2 =
        (⟨wC2.states.map (fun q => (q.1, q.2.reset)), 0, wC2.sent ++ out⟩, none) ∧
      out.map (fun r => r.RefId) = wC2.states.map (fun p => p.1) :=
  ⟨by decide,
    c5_flush_one_batch_per_state encId wC2 (by decide)
      (fun p _ => ⟨⟨p.1, fullFrames p.2, p.2.Status, p.2.Error.getD "", p.2.ErrorSource⟩, by
        unfold buildResp
        have henc : encodeAll encId (fullFrames p.2) = .ok (fullFrames p.2) := by
          induction fullFrames p.2 with
          | nil => rfl
          | cons f rest ih => rw [encodeAll, ih]; rfl
        rw [henc]⟩)⟩

/-- Looking up in a value-mapped association list. -/
theorem alookup_map {α β : Type} (g : α → β) (l : List (String × α)) (id : String) :
    alookup (l.map (fun p => (p.1, g p.2))) id = (alookup l id).map g := by
  induction l with
  | nil => rfl
  | cons p rest ih =>
    by_cases hp : p.1 = id
    · simp [alookup, hp]
    · simp [alookup, hp, ih]

/-- C7.  After a successful non-trivial flush, every state is `reset`: an
identifier with an open frame restarts from a fragment list holding exactly
one fresh zero-row empty copy of that frame, with the open pointer on it and
the error fields cleared, and that list contains no marker sentinel (so no new
boundary marker is emitted across an automatic flush — markers only come from
`addFrame`, i.e. from opening a table); an identifier with no open frame is
cleared entirely. -/
theorem c7_reset_after_successful_flush (enc : Frame → Except String Frame)
    (w w' : ChunkedDataWriter) (hc : w.count ≠ 0) (h : flush enc w = (w', none)) :
    w'.states = w.states.map (fun q => (q.1, q.2.reset)) ∧
    ∀ id st, alookup w.states id = some st →
      (∀ fr, st.curFrame = some fr →
        alookup w'.states id = some ⟨[], some fr.emptyCopy, none, 0, ""⟩ ∧
        fullFrames st.reset = [fr.emptyCopy] ∧
        (fr.fields ≠ [] → markerFrame ∉ fullFrames st.reset)) ∧
      (st.curFrame = none → alookup w'.states id = some ⟨[], none, none, 0, ""⟩) := by
  rw [flush, if_neg hc] at h
  rcases hq : flushSends enc w.states with ⟨out, err⟩
  rw [hq] at h
  cases err with
  | some e => exact absurd (congrArg Prod.snd h) (by simp)
  | none =>
    have hst : w'.states = w.states.map (fun q => (q.1, q.2.reset)) := by
      have := congrArg (fun p => p.1.states) h
      simpa using this.symm
    refine ⟨hst, ?_⟩
    intro id st hid
    have hlk : alookup w'.states id = some st.reset := by
      rw [hst, alookup_map, hid]
      rfl
    constructor
    · intro fr hfr
      have hres : st.reset = ⟨[], some fr.emptyCopy, none, 0, ""⟩ := by
        rw [ChunkingState.reset, hfr]
      refine ⟨by rw [hlk, hres], by rw [hres]; rfl, ?_⟩
      intro hne hmem
      rw [hres] at hmem
      have : markerFrame = fr.emptyCopy := by
        simpa [fullFrames] using hmem
      have : ([] : List DataField) = fr.fields.map (fun fl => ⟨fl.name, []⟩) :=
        congrArg Frame.fields this
      cases hfl : fr.fields with
      | nil => exact hne hfl
      | cons a rest => rw [hfl] at this; exact absurd this (by simp)
    · intro hnone
      have hres : st.reset = ⟨[], none, none, 0, ""⟩ := by
        rw [ChunkingState.reset, hnone]
      rw [hlk, hres]

/-- C7 witness: the reset statement at the concrete writer `w7`. -/
theorem c7_witness :
    w7.count ≠ 0 ∧ flush encId w7 = (w7flushed, none) ∧
    w7flushed.states = w7.states.map (fun q => (q.1, q.2.reset)) :=
  ⟨by decide, by decide,
    (c7_reset_after_successful_flush encId w7 w7flushed (by decide) (by decide)).1⟩

/-- C3 counterexample.  A stream that first delivers a healthy table for
RefID "B", then opens a one-column table for "A" and merges a two-column
fragment into it: the whole reassembly panics (index out of range on the
current frame's columns) instead of failing with a schema-mismatch error, and
"B"'s already accumulated table is lost with it. -/
theorem c3_counterexample :
    runClient encId []
      [⟨"B", [⟨"tb", "B", [⟨"z", [9]⟩]⟩], 0, "", ""⟩,
       ⟨"A", [c3open], 0, "", ""⟩,
       ⟨"A", [c3wide], 0, "", ""⟩] none = ClientResult.crashed := by
  decide

/-- C3 (amended).  The merge step checks nothing about schemas: an incoming
non-empty fragment with MORE columns than the open table makes the client
panic (aborting reconstruction of every identifier), and one with FEWER (or
equally many) columns is merged column-for-column into the open table's first
columns with no error at all — no schema-mismatch failure exists. -/
theorem c3_merge_is_unchecked (st : StreamState) (cur f : Frame)
    (hc : st.curFrame = some cur) (hr : f.rows ≠ 0) :
    (cur.fields.length < f.fields.length → clientStep st f = none) ∧
    (f.fields.length ≤ cur.fields.length →
      clientStep st f = some ⟨st.frames, some (mergeInto cur f)⟩) := by
  constructor
  · intro h
    rw [clientStep, if_neg hr, hc]
    exact if_pos h
  · intro h
    rw [clientStep, if_neg hr, hc]
    exact if_neg (Nat.not_lt.mpr h)

/-- C3 witness: the amended statement at a concrete open table and wide
fragment. -/
theorem c3_witness :
    (⟨[], some c3open⟩ : StreamState).curFrame = some c3open ∧ c3wide.rows ≠ 0 ∧
    c3open.fields.length < c3wide.fields.length ∧
    clientStep ⟨[], some c3open⟩ c3wide = none :=
  ⟨rfl, by decide, by decide,
    (c3_merge_is_unchecked ⟨[], some c3open⟩ c3open c3wide rfl (by decide)).1 (by decide)⟩

/-- C4 counterexample.  On a fresh writer, `WriteFrameRow` for an identifier
never seen panics (nil-pointer dereference of the missing state inside
`addRow`) instead of returning the no-open-fragment error. -/
theorem c4_counterexample : WriteFrameRow encId newWriter "A" [1] = none := by
  decide

/-- C4 (amended).  `WriteFrameRow` for an identifier the writer holds no state
for crashes (nil dereference); only when a state exists whose open-frame
pointer is unset — a situation the writer API itself never produces — does the
call return the no-open-fragment error, leaving the writer unchanged. -/
theorem c4_append_before_open (enc : Frame → Except String Frame)
    (w : ChunkedDataWriter) (id : String) (vals : List Val) :
    (alookup w.states id = none → WriteFrameRow enc w id vals = none) ∧
    (∀ st, alookup w.states id = some st → st.curFrame = none →
      WriteFrameRow enc w id vals = some (w, some noFrameMsg)) := by
  constructor
  · intro h
    rw [WriteFrameRow, h]
  · intro st h hcur
    simp [WriteFrameRow, h, ChunkingState.addRow, hcur]

/-- C4 witness: the amended statement at the concrete writer `w4`. -/
theorem c4_witness :
    alookup w4.states "A" = some ⟨[], none, none, 0, ""⟩ ∧
    WriteFrameRow encId w4 "A" [1] = some (w4, some noFrameMsg) :=
  ⟨by decide,
    (c4_append_before_open encId w4 "A" [1]).2 ⟨[], none, none, 0, ""⟩ (by decide) rfl⟩

/-- C8.  `WriteFrameRow` with a field count different from the open frame's
column count returns the field-count-mismatch error and leaves the writer —
in particular the open frame's rows and columns — exactly as it was. -/
theorem c8_arity_mismatch_untouched (enc : Frame → Except String Frame)
    (w : ChunkedDataWriter) (id : String) (st : ChunkingState) (fr : Frame)
    (vals : List Val)
    (h1 : alookup w.states id = some st) (h2 : st.curFrame = some fr)
    (h3 : vals.length ≠ fr.fields.length) :
    WriteFrameRow enc w id vals =
      some (w, some (arityMsg vals.length fr.fields.length)) := by
  simp [WriteFrameRow, h1, ChunkingState.addRow, h2, if_neg h3]

/-- C8 witness: a two-value row against the one-column open frame. -/
theorem c8_witness :
    ([1, 2] : List Val).length ≠ (⟨"t", "A", [⟨"x", [1]⟩]⟩ : Frame).fields.length ∧
    WriteFrameRow encId w8 "A" [1, 2] = some (w8, some (arityMsg 2 1)) :=
  ⟨by decide,
    c8_arity_mismatch_untouched encId w8 "A" stC8 ⟨"t", "A", [⟨"x", [1]⟩]⟩ [1, 2]
      (by decide) rfl (by decide)⟩

/-- C9.  `WriteError` for an identifier never passed to `WriteFrame`
dereferences the missing (nil) state when attaching the error and crashes:
the operation is not total and neither returns an error nor creates the
state. -/
theorem c9_write_error_nil_state (enc : Frame → Except String Frame)
    (w : ChunkedDataWriter) (id : String) (emsg : String)
    (h : alookup w.states id = none) :
    WriteError enc w id emsg = none := by
  rw [WriteError, h]

/-- C9 witness: `WriteError` on a fresh writer. -/
theorem c9_witness :
    alookup newWriter.states "Z" = none ∧ WriteError encId newWriter "Z" "boom" = none :=
  ⟨by decide, c9_write_error_nil_state encId newWriter "Z" "boom" (by decide)⟩

/-- C6 counterexample.  A stream that delivers one table for "A" and is then
terminated by a transport error: with a normal end of stream the table would
be returned, but with the error the reassembler returns ONLY the error — the
accumulated table is discarded, contradicting the claim that accumulated
tables are returned together with the cancellation error. -/
theorem c6_counterexample :
    runClient encId [] [⟨"A", [⟨"t", "A", [⟨"x", [5]⟩]⟩], 0, "", ""⟩] none =
      ClientResult.ok [("A", [⟨"t", "A", [⟨"x", [5]⟩]⟩])] ∧
    runClient encId [] [⟨"A", [⟨"t", "A", [⟨"x", [5]⟩]⟩], 0, "", ""⟩] (some "boom") =
      ClientResult.fail "boom" := by
  decide

/-- C6 (amended).  When the stream ends with a transport error (any receive
error other than the end-of-data marker), the reassembler stops its loop and
returns only that error: every response processed before the error is
processed the same way as on a clean stream, but the tables accumulated from
them are discarded, not returned. -/
theorem c6_transport_error_discards (dec : Frame → Except String Frame)
    (resps : List ChunkedDataResponse) (e : String)
    (m : List (String × StreamState)) (out : List (String × List Frame))
    (h : runClient dec m resps none = .ok out) :
    runClient dec m resps (some e) = .fail e := by
  induction resps generalizing m with
  | nil => rfl
  | cons r rest ih =>
    rw [runClient] at h ⊢
    cases hp : procFrames dec ((alookup m r.RefId).getD ⟨[], none⟩) r.Frames with
    | ok st2 => rw [hp] at h; exact ih (aset m r.RefId st2) h
    | fail e2 => rw [hp] at h; exact absurd h (by simp)
    | crashed => rw [hp] at h; exact absurd h (by simp)

/-- C6 witness: the amended statement at a concrete one-response stream. -/
theorem c6_witness :
    runClient encId [] [⟨"C", [⟨"u", "C", [⟨"y", [7]⟩]⟩], 0, "", ""⟩] none =
      ClientResult.ok [("C", [⟨"u", "C", [⟨"y", [7]⟩]⟩])] ∧
    runClient encId [] [⟨"C", [⟨"u", "C", [⟨"y", [7]⟩]⟩], 0, "", ""⟩] (some "canceled") =
      ClientResult.fail "canceled" :=
  ⟨by decide,
    c6_transport_error_discards encId [⟨"C", [⟨"u", "C", [⟨"y", [7]⟩]⟩], 0, "", ""⟩]
      "canceled" [] [("C", [⟨"u", "C", [⟨"y", [7]⟩]⟩])] (by decide)⟩

/-- Merging a fragment into a frame with at least one row leaves at least one
row (`AppendAll` only adds values to columns). -/
theorem mergeInto_rows_pos (cur f : Frame) (h : 1 ≤ cur.rows) :
    1 ≤ (mergeInto cur f).rows := by
  obtain ⟨cn, cr, cfs⟩ := cur
  cases cfs with
  | nil => exact absurd h (by simp [Frame.rows])
  | cons c cs =>
    have hlen : 1 ≤ c.values.length := by simpa [Frame.rows] using h
    cases hf : f.fields with
    | nil => simpa [mergeInto, hf, Frame.rows] using h
    | cons a as =>
      simp [mergeInto, hf, Frame.rows, appendAllVals]
      omega

/-- `clientStep` preserves the rows-positive invariant. -/
theorem clientStep_good (st st2 : StreamState) (f : Frame)
    (hg : goodS st) (h : clientStep st f = some st2) : goodS st2 := by
  obtain ⟨sf, sc⟩ := st
  rw [clientStep] at h
  by_cases hr : f.rows = 0
  · rw [if_pos hr] at h
    cases h
    refine ⟨?_, ?_⟩
    · intro g hgmem
      rcases List.mem_append.mp hgmem with h1 | h2
      · exact hg.1 g h1
      · exact hg.2 g h2
    · intro g hgmem
      simp at hgmem
  · rw [if_neg hr] at h
    cases sc with
    | some cur =>
      replace h : (if cur.fields.length < f.fields.length then (none : Option StreamState)
          else some ⟨sf, some (mergeInto cur f)⟩) = some st2 := h
      by_cases hlt : cur.fields.length < f.fields.length
      · rw [if_pos hlt] at h
        exact absurd h (by simp)
      · rw [if_neg hlt] at h
        cases h
        refine ⟨hg.1, ?_⟩
        intro g hgmem
        rw [Option.mem_toList, Option.mem_def, Option.some_inj] at hgmem
        subst hgmem
        exact mergeInto_rows_pos cur f (hg.2 cur (by simp))
    | none =>
      replace h : some (⟨sf, some f⟩ : StreamState) = some st2 := h
      cases h
      refine ⟨hg.1, ?_⟩
      intro g hgmem
      rw [Option.mem_toList, Option.mem_def, Option.some_inj] at hgmem
      subst hgmem
      exact Nat.one_le_iff_ne_zero.mpr hr

/-- `procFrames` preserves the rows-positive invariant. -/
theorem procFrames_good (dec : Frame → Except String Frame) (fs : List Frame)
    (st st2 : StreamState) (hg : goodS st) (h : procFrames dec st fs = .ok st2) :
    goodS st2 := by
  induction fs generalizing st with
  | nil =>
    rw [procFrames] at h
    cases h
    exact hg
  | cons f rest ih =>
    rw [procFrames] at h
    cases hd : dec f with
    | error e => rw [hd] at h; exact absurd h (by simp)
    | ok fd =>
      rw [hd] at h
      replace h : (match clientStep st fd with
          | none => ProcRes.crashed
          | some st3 => procFrames dec st3 rest) = ProcRes.ok st2 := h
      cases hs : clientStep st fd with
      | none => rw [hs] at h; exact absurd h (by simp)
      | some st3 => rw [hs] at h; exact ih st3 (clientStep_good st st3 fd hg hs) h

/-- A successful association-list lookup exhibits a member. -/
theorem alookup_mem {α : Type} (l : List (String × α)) (id : String) (v : α)
    (h : alookup l id = some v) : (id, v) ∈ l := by
  induction l with
  | nil => exact absurd h (by simp [alookup])
  | cons p rest ih =>
    rw [alookup] at h
    by_cases hp : p.1 = id
    · rw [if_pos hp] at h
      obtain ⟨p1, p2⟩ := p
      obtain rfl : p2 = v := Option.some_inj.mp h
      obtain rfl : p1 = id := hp
      exact List.mem_cons_self _ _
    · rw [if_neg hp] at h
      exact List.mem_cons_of_mem _ (ih h)

/-- An association-list update preserves a pointwise property of the values. -/
theorem aset_forall {α : Type} (P : α → Prop) (l : List (String × α)) (id : String)
    (v : α) (hl : ∀ p ∈ l, P p.2) (hv : P v) : ∀ p ∈ aset l id v, P p.2 := by
  induction l with
  | nil =>
    intro p hp
    rw [aset, List.mem_singleton] at hp
    subst hp
    exact hv
  | cons q rest ih =>
    intro p hp
    rw [aset] at hp
    by_cases hq : q.1 = id
    · rw [if_pos hq] at hp
      rcases List.mem_cons.mp hp with h1 | h2
      · subst h1; exact hv
      · exact hl p (List.mem_cons_of_mem q h2)
    · rw [if_neg hq] at hp
      rcases List.mem_cons.mp hp with h1 | h2
      · subst h1; exact hl p (List.mem_cons_self p rest)
      · exact ih (fun r hr => hl r (List.mem_cons_of_mem q hr)) p h2

/-- Every table a successful reassembler run returns has at least one row. -/
theorem runClient_rows_pos (dec : Frame → Except String Frame)
    (resps : List ChunkedDataResponse) (m : List (String × StreamState))
    (out : List (String × List Frame)) (hm : ∀ p ∈ m, goodS p.2)
    (h : runClient dec m resps none = .ok out) :
    ∀ p ∈ out, ∀ fr ∈ p.2, 1 ≤ fr.rows := by
  induction resps generalizing m with
  | nil =>
    rw [runClient] at h
    injection h with hh
    subst hh
    intro p hp fr hfr
    obtain ⟨q, hq, rfl⟩ := List.mem_map.mp hp
    have hgq := hm q hq
    rcases List.mem_append.mp hfr with h1 | h2
    · exact hgq.1 fr h1
    · exact hgq.2 fr h2
  | cons r rest ih =>
    rw [runClient] at h
    cases hp : procFrames dec ((alookup m r.RefId).getD ⟨[], none⟩) r.Frames with
    | ok st2 =>
      rw [hp] at h
      have hst0 : goodS ((alookup m r.RefId).getD ⟨[], none⟩) := by
        cases hl : alookup m r.RefId with
        | none =>
          refine ⟨?_, ?_⟩ <;> intro g hgmem <;> simp at hgmem
        | some st0 => exact hm (r.RefId, st0) (alookup_mem m r.RefId st0 hl)
      exact ih (aset m r.RefId st2)
        (aset_forall goodS m r.RefId st2 hm
          (procFrames_good dec r.Frames _ st2 hst0 hp)) h
    | fail e2 => rw [hp] at h; exact absurd h (by simp)
    | crashed => rw [hp] at h; exact absurd h (by simp)

/-- C10.  The reassembler classifies fragments by row count alone: any
zero-row fragment — whatever its column count — closes the open logical table
(`curFrame` becomes unset) and is itself dropped (the accumulated frame list
is unchanged); consequently a successful run never returns a zero-row table
for any identifier. -/
theorem c10_zero_rows_is_boundary (dec : Frame → Except String Frame) :
    (∀ (st : StreamState) (f : Frame), f.rows = 0 →
      clientStep st f = some ⟨st.frames ++ st.curFrame.toList, none⟩ ∧
      allFrames ⟨st.frames ++ st.curFrame.toList, none⟩ = allFrames st) ∧
    (∀ (resps : List ChunkedDataResponse) (out : List (String × List Frame)),
      runClient dec [] resps none = .ok out →
      ∀ p ∈ out, ∀ fr ∈ p.2, 1 ≤ fr.rows) := by
  constructor
  · intro st f hf
    refine ⟨by rw [clientStep, if_pos hf], ?_⟩
    simp [allFrames]
  · intro resps out h
    exact runClient_rows_pos dec resps [] out (by intro p hp; simp at hp) h

/-- C10 witness: the statement at a concrete state and stream. -/
theorem c10_witness :
    f0wide.rows = 0 ∧
    clientStep ⟨[c3open], some c3wide⟩ f0wide = some ⟨[c3open, c3wide], none⟩ ∧
    (∀ p ∈ [("A", [c3open])], ∀ fr ∈ p.2, 1 ≤ fr.rows) :=
  ⟨by decide,
    ((c10_zero_rows_is_boundary encId).1 ⟨[c3open], some c3wide⟩ f0wide (by decide)).1,
    (c10_zero_rows_is_boundary encId).2 [⟨"A", [c3open], 0, "", ""⟩] [("A", [c3open])]
      (by decide)⟩
